import Mathlib

/-!
Verification of the dj-set-tagger client job poller and series batch UI.

The definitions below are a shallow embedding of:
* `JobProvider` / `doPoll` / `startPolling` and the mount-time resume effect
  from `src/frontend/src/contexts/JobContext.jsx` (source file `src/unnamed/part_003`);
* `applyMutation.onSuccess` / `removeMutation.onSuccess` and the status
  rendering from `src/frontend/src/pages/Series.jsx`;
* the backend endpoints (`applySeriesAlbum`, `removeFromSeries`,
  `getJobStatus`), which are not part of the source tree and are therefore
  modelled from the specification where a claim needs them.

JavaScript objects with possibly-absent fields are embedded with `Option`
fields; JS truthiness of a numeric field read with `x || 0` is `Option.getD 0`
(`0 || 0 = 0` agrees), and truthiness of a string is "present and nonempty".
Template interpolation of an absent field renders `undefined`, mirrored by
`jsNat`.
-/

/-- One entry of a per-file error list: `{filename, error}`. -/
structure FileError where
  filename : String
  error : String
deriving DecidableEq

/-- A toast shown to the user.  The JS success toasts carry no `errors` key,
hence `Option`. -/
structure Toast where
  kind : String
  message : String
  errors : Option (List FileError)
deriving DecidableEq

/-- The background-job snapshot stored by `setBackgroundJob` in `doPoll` and
`startPolling`: all counters present, errors an actual list. -/
structure JobSnapshot where
  jobId : String
  status : String
  processed : Nat
  total : Nat
  written : Nat
  errors : List FileError
deriving DecidableEq

/-- The wire response of `getTaggingJobStatus` as the client reads it: only
`status` is assumed present, every other field may be absent. -/
structure PollResponse where
  status : String
  processed : Option Nat := none
  total : Option Nat := none
  written : Option Nat := none
  errors : Option (List FileError) := none
deriving DecidableEq

/-- Outcome of one awaited `getTaggingJobStatus(jobId)` call: a response, or a
thrown error (network failure etc.), which lands in `doPoll`'s catch block. -/
inductive PollOutcome
  | ok (r : PollResponse)
  | err
deriving DecidableEq

/-- An interval installed with `setInterval(() => doPoll(jobId), periodMs)`:
the returned handle, the captured job id, and the period in milliseconds. -/
structure IntervalRec where
  handle : Nat
  jobId : String
  periodMs : Nat
deriving DecidableEq

/-- State of the `JobProvider` context plus the browser facilities it uses:
`backgroundJob`/`jobToast` are React state, `pollIntervalRef` the ref,
`storage` the `localStorage` slot under `setlist_activeJob`, `activeIntervals`
the set of not-yet-cleared intervals (with `nextHandle` the fresh-handle
counter), `issued` the log of job ids for which `getTaggingJobStatus` was
called, `invalidated` the query keys passed to `invalidateQueries`, and
`pendingClear` whether the 2-second `setTimeout` clearing `backgroundJob`
is scheduled. -/
structure ClientState where
  backgroundJob : Option JobSnapshot
  jobToast : Option Toast
  pollIntervalRef : Option Nat
  storage : Option String
  activeIntervals : List IntervalRec
  nextHandle : Nat
  issued : List String
  invalidated : List String
  pendingClear : Bool
deriving DecidableEq

/-- The freshly mounted provider: no job, no toast, no interval, nothing
persisted. -/
def initState : ClientState :=
  { backgroundJob := none, jobToast := none, pollIntervalRef := none,
    storage := none, activeIntervals := [], nextHandle := 0,
    issued := [], invalidated := [], pendingClear := false }

/-- JS template rendering of a possibly-absent numeric field. -/
def jsNat : Option Nat → String
  | none => "undefined"
  | some n => toString n

/-- JS truthiness of a possibly-absent string field. -/
def jsTruthyStr : Option String → Bool
  | none => false
  | some v => v ≠ ""

/-- `if (pollIntervalRef.current) { clearInterval(pollIntervalRef.current);
pollIntervalRef.current = null }`. -/
def clearPollInterval (s : ClientState) : ClientState :=
  match s.pollIntervalRef with
  | some h =>
    { s with activeIntervals := s.activeIntervals.filter (fun r => r.handle ≠ h),
             pollIntervalRef := none }
  | none => s

/-- The snapshot `doPoll` stores on a successful response: missing counters
default to 0 (`status.processed || 0` …) and missing errors to `[]`. -/
def snapshotOf (jobId : String) (r : PollResponse) : JobSnapshot :=
  { jobId := jobId, status := r.status,
    processed := r.processed.getD 0, total := r.total.getD 0,
    written := r.written.getD 0, errors := r.errors.getD [] }

/-- The toast built in `doPoll`'s `completed` branch.  It reads the raw
response fields (not the defaulted snapshot): `status.errors?.length > 0`
selects the branch, the error message interpolates `status.written` and
`status.total` directly. -/
def completedToast (r : PollResponse) : Toast :=
  if (r.errors.getD []).length > 0 then
    { kind := "error",
      message := jsNat r.written ++ "/" ++ jsNat r.total ++ " files written. "
        ++ toString (r.errors.getD []).length ++ " errors:",
      errors := some (r.errors.getD []) }
  else
    { kind := "success",
      message := "Successfully tagged " ++ jsNat r.written ++ " tracks",
      errors := none }

/-- The branch structure of `doPoll` after the snapshot has been stored
(`s1` is the state with the snapshot already set): `completed` stops the
interval, drops storage, invalidates the three queries, shows the toast and
schedules the 2 s clear; `not_found` stops the interval, drops storage and
clears the job; any other status leaves the rest of the state alone. -/
def doPollOk (s1 : ClientState) (r : PollResponse) : ClientState :=
  if r.status = "completed" then
    { clearPollInterval s1 with
      storage := none,
      invalidated := (clearPollInterval s1).invalidated ++ ["series", "taggedSeries", "tracks"],
      jobToast := some (completedToast r),
      pendingClear := true }
  else if r.status = "not_found" then
    { clearPollInterval s1 with storage := none, backgroundJob := none }
  else s1

/-- The body of `doPoll(jobId)` once the awaited call has settled with
`res`.  On a response it stores the snapshot and branches on the status; a
thrown error takes the catch block: stop interval, drop storage, clear
job. -/
def doPoll (s : ClientState) (jobId : String) (res : PollOutcome) : ClientState :=
  match res with
  | .err => { clearPollInterval s with storage := none, backgroundJob := none }
  | .ok r => doPollOk { s with backgroundJob := some (snapshotOf jobId r) } r

/-- `startPolling(jobId)`: clear any existing interval, persist the job id,
publish a zeroed `starting` snapshot, call `doPoll(jobId)` once immediately
(logged in `issued`; its resolution is a later `Event.resolve`), and install
a fresh 500 ms interval. -/
def startPolling (s : ClientState) (jobId : String) : ClientState :=
  let cleared :=
    match s.pollIntervalRef with
    | some h => s.activeIntervals.filter (fun r => r.handle ≠ h)
    | none => s.activeIntervals
  { s with storage := some jobId,
           backgroundJob := some { jobId := jobId, status := "starting",
                                   processed := 0, total := 0, written := 0, errors := [] },
           issued := s.issued ++ [jobId],
           activeIntervals := cleared ++ [{ handle := s.nextHandle, jobId := jobId, periodMs := 500 }],
           pollIntervalRef := some s.nextHandle,
           nextHandle := s.nextHandle + 1 }

/-- The mount-time effect of `JobProvider`: if a job id is saved in
`localStorage` (truthy) and no interval is active, publish a zeroed
`resuming` snapshot, poll once immediately, and install a 500 ms interval
for the saved id.  Otherwise do nothing. -/
def mountEffect (s : ClientState) : ClientState :=
  if jsTruthyStr s.storage = true ∧ s.pollIntervalRef = none then
    { s with backgroundJob := some { jobId := s.storage.getD "", status := "resuming",
                                     processed := 0, total := 0, written := 0, errors := [] },
             issued := s.issued ++ [s.storage.getD ""],
             activeIntervals := s.activeIntervals ++
               [{ handle := s.nextHandle, jobId := s.storage.getD "", periodMs := 500 }],
             pollIntervalRef := some s.nextHandle,
             nextHandle := s.nextHandle + 1 }
  else s

/-- An active interval fires: it issues `doPoll` for its captured job id
(the resolution is a separate `Event.resolve`).  A cleared handle fires
nothing. -/
def fireInterval (s : ClientState) (h : Nat) : ClientState :=
  match s.activeIntervals.find? (fun r => r.handle = h) with
  | some rec => { s with issued := s.issued ++ [rec.jobId] }
  | none => s

/-- The 2-second `setTimeout(() => setBackgroundJob(null), 2000)` scheduled
by the `completed` branch fires. -/
def timeoutFire (s : ClientState) : ClientState :=
  if s.pendingClear then { s with backgroundJob := none, pendingClear := false }
  else s

/-- Events driving the poller: a `startPolling` call, the settlement of an
in-flight `getTaggingJobStatus` call, an interval tick, the mount effect,
and the scheduled clear firing. -/
inductive Event
  | start (jobId : String)
  | resolve (jobId : String) (res : PollOutcome)
  | tick (h : Nat)
  | mount
  | timeout
deriving DecidableEq

/-- One step of the poller. -/
def step (s : ClientState) : Event → ClientState
  | .start j => startPolling s j
  | .resolve j res => doPoll s j res
  | .tick h => fireInterval s h
  | .mount => mountEffect s
  | .timeout => timeoutFire s

/-- Run a sequence of events. -/
def runEvents (s : ClientState) : List Event → ClientState
  | [] => s
  | e :: es => runEvents (step s e) es

/-- Is the event a `startPolling` call? -/
def Event.isStart : Event → Bool
  | .start _ => true
  | _ => false

/-- `es` contains no `startPolling` call. -/
def noNewStart (es : List Event) : Prop :=
  ∀ e ∈ es, e.isStart = false

instance : DecidablePred noNewStart := by
  intro es
  unfold noNewStart
  exact List.decidableBAll _ es

/-! ## The Series page (`src/frontend/src/pages/Series.jsx`) -/

/-- The wire response of `applySeriesAlbum` as `applyMutation.onSuccess`
reads it: every field may be absent; `background` is the JS truthiness of
`data.background`. -/
structure ApplyResponse where
  background : Bool := false
  job_id : Option String := none
  updated : Option Nat := none
  written : Option Nat := none
  total_files : Option Nat := none
  errors : Option (List FileError) := none
  message : Option String := none
deriving DecidableEq

/-- The wire response of `removeFromSeries` as `removeMutation.onSuccess`
reads it. -/
structure RemoveResponse where
  updated : Option Nat := none
  errors : Option (List FileError) := none
  message : Option String := none
  background : Bool := false
  job_id : Option String := none
deriving DecidableEq

/-- Local state of the `Series` page component. -/
structure PageState where
  applyingIndex : Option Nat
  applyingTaggedIndex : Option Nat
  removingIndex : Option Nat
  localToast : Option Toast
  pageInvalidated : List String
deriving DecidableEq

/-- Initial page state. -/
def initPage : PageState :=
  { applyingIndex := none, applyingTaggedIndex := none, removingIndex := none,
    localToast := none, pageInvalidated := [] }

/-- `v || dflt` for a possibly-absent string field. -/
def jsStrOr (v : Option String) (dflt : String) : String :=
  match v with
  | some m => if m ≠ "" then m else dflt
  | none => dflt

/-- The toast of `applyMutation.onSuccess`'s synchronous branch: the error
toast when `data.errors && data.errors.length > 0`, otherwise
`data.message || Successfully updated … tracks`. -/
def syncToast (d : ApplyResponse) : Toast :=
  if (d.errors.getD []).length > 0 then
    { kind := "error",
      message := jsNat d.written ++ "/" ++ jsNat d.total_files ++ " files written. "
        ++ toString (d.errors.getD []).length ++ " errors:",
      errors := some (d.errors.getD []) }
  else
    { kind := "success",
      message := jsStrOr d.message ("Successfully updated " ++ jsNat d.updated ++ " tracks"),
      errors := none }

/-- The synchronous-completion branch of `applyMutation.onSuccess`: clear
the applying markers, invalidate the three queries, show the toast. -/
def syncFinish (ps : PageState) (d : ApplyResponse) : PageState :=
  { ps with applyingIndex := none, applyingTaggedIndex := none,
            pageInvalidated := ps.pageInvalidated ++ ["series", "taggedSeries", "tracks"],
            localToast := some (syncToast d) }

/-- `applyMutation.onSuccess(data)`: when `data.background && data.job_id`
is truthy, hand the job id to `startPolling` and leave the page state
untouched; otherwise finish as a synchronous batch. -/
def applyOnSuccess (cs : ClientState) (ps : PageState) (d : ApplyResponse) :
    ClientState × PageState :=
  if d.background && jsTruthyStr d.job_id then
    (startPolling cs (d.job_id.getD ""), ps)
  else
    (cs, syncFinish ps d)

/-- The toast of `removeMutation.onSuccess`. -/
def removeToast (d : RemoveResponse) : Toast :=
  if (d.errors.getD []).length > 0 then
    { kind := "error",
      message := jsNat d.updated ++ " tracks removed. "
        ++ toString (d.errors.getD []).length ++ " errors:",
      errors := some (d.errors.getD []) }
  else
    { kind := "success",
      message := jsStrOr d.message
        ("Successfully removed " ++ jsNat d.updated ++ " tracks from series"),
      errors := none }

/-- `removeMutation.onSuccess(data)`: always the synchronous path — clear
the removing marker, invalidate, toast; it never inspects `background` or
`job_id` and never starts polling. -/
def removeOnSuccess (ps : PageState) (d : RemoveResponse) : PageState :=
  { ps with removingIndex := none,
            pageInvalidated := ps.pageInvalidated ++ ["series", "taggedSeries", "tracks"],
            localToast := some (removeToast d) }

/-- The statuses the background-progress panel of `Series.jsx` renders with
a dedicated label (its fallback branch checks this very list). -/
def clientHandledStatuses : List String :=
  ["starting", "resuming", "downloading_cover", "loading_tracks",
   "tagging", "updating_database", "completed"]

/-- The label the background-progress panel shows for a status string. -/
def statusLabel (status : String) : String :=
  if status = "starting" then "Starting..."
  else if status = "resuming" then "Resuming..."
  else if status = "downloading_cover" then "Downloading cover art..."
  else if status = "loading_tracks" then "Loading tracks..."
  else if status = "tagging" then "Tagging files..."
  else if status = "updating_database" then "Updating database..."
  else if status = "completed" then "Complete!"
  else "Processing... (" ++ (if status = "" then "unknown" else status) ++ ")"

/-! ## Spec-modelled backend

The backend (job registry, tag batch executor, HTTP endpoints) is not in
the source tree — only the React client is.  Where a claim is about the
server side, it is settled against definitions modelled from the spec. -/

/-- Modelled from the spec: the job-status domain of `getJobStatus`, absent
from the source tree.  "`status` ∈ {starting, resuming, downloading_cover,
loading_tracks, tagging, updating_database, completed, not_found}". -/
inductive JobStatus
  | starting
  | resuming
  | downloading_cover
  | loading_tracks
  | tagging
  | updating_database
  | completed
  | not_found
deriving DecidableEq

/-- The wire string of a job status. -/
def JobStatus.toWire : JobStatus → String
  | .starting => "starting"
  | .resuming => "resuming"
  | .downloading_cover => "downloading_cover"
  | .loading_tracks => "loading_tracks"
  | .tagging => "tagging"
  | .updating_database => "updating_database"
  | .completed => "completed"
  | .not_found => "not_found"

/-- The eight status strings the spec allows. -/
def specStatusStrings : List String :=
  ["starting", "resuming", "downloading_cover", "loading_tracks",
   "tagging", "updating_database", "completed", "not_found"]

/-- Modelled from the spec: the result of the backend `applySeriesAlbum`,
absent from the source tree — either a synchronous
`SyncResult{updated, written, total_files, errors, message}` or a
background delegation `{background: true, job_id}`. -/
inductive ApplyResult
  | sync (updated written total_files : Nat) (errors : List FileError) (message : String)
  | background (job_id : String)
deriving DecidableEq

/-- A well-formed backend result: a generated job id is a nonempty opaque
string. -/
def ApplyResult.wf : ApplyResult → Prop
  | .sync _ _ _ _ _ => True
  | .background j => j ≠ ""

instance : DecidablePred ApplyResult.wf := by
  intro r
  cases r
  case sync u w t es m =>
    exact isTrue trivial
  case background j =>
    exact (inferInstance : Decidable (j ≠ ""))

/-- The JSON the client receives for each backend result. -/
def encodeApplyResult : ApplyResult → ApplyResponse
  | .sync u w t errs m =>
    { background := false, job_id := none, updated := some u, written := some w,
      total_files := some t, errors := some errs, message := some m }
  | .background j => { background := true, job_id := some j }

/-- Modelled from the spec: a catalog track as the Track data model of §3
describes it (referenced by id; album-related matched metadata; a status). -/
structure Track where
  id : Nat
  filename : String
  current_album : Option String := none
  matched_album : Option String := none
  matched_artist : Option String := none
  matched_genre : Option String := none
  matched_album_artist : Option String := none
  matched_cover_url : Option String := none
  status : String := "pending"
deriving DecidableEq

/-- Modelled from the spec: `remove` "clears album-related matched metadata
and reverts status for the given tracks". -/
def clearSeriesMeta (t : Track) : Track :=
  { t with matched_album := none, matched_album_artist := none,
           matched_cover_url := none, status := "pending" }

/-- Filename of a track id in the store (for error entries). -/
def trackFilename (store : List Track) (tid : Nat) : String :=
  match store.find? (fun t => t.id = tid) with
  | some t => t.filename
  | none => toString tid

/-- Modelled from the spec: the per-track loop of `remove` with its
continue-on-error policy.  External per-track failures are modelled by the
`failing` id set; a failing track contributes one error entry and the loop
proceeds, a succeeding track is cleared and counted in `updated`.  Returns
`(updated, errors, store)` with errors in processing order. -/
def removeRun (failing : List Nat) : List Nat → List Track → Nat × List FileError × List Track
  | [], store => (0, [], store)
  | tid :: rest, store =>
    if tid ∈ failing then
      let out := removeRun failing rest store
      (out.1, { filename := trackFilename store tid, error := "update failed" } :: out.2.1, out.2.2)
    else
      let out := removeRun failing rest
        (store.map (fun t => if t.id = tid then clearSeriesMeta t else t))
      (out.1 + 1, out.2.1, out.2.2)

/-- Modelled from the spec: `removeFromSeries(track_ids) -> {updated, errors}`,
"always synchronous (no job)" — the response never carries `background` or a
`job_id`. -/
def removeFromSeries (store : List Track) (failing : List Nat) (trackIds : List Nat) :
    RemoveResponse × List Track :=
  let out := removeRun failing trackIds store
  ({ updated := some out.1, errors := some out.2.1, message := none,
     background := false, job_id := none }, out.2.2)

/-- The poller's interval invariant: either no interval is installed, or
exactly one, its handle held by `pollIntervalRef` and its period 500 ms. -/
def PollerInv (s : ClientState) : Prop :=
  s.activeIntervals = [] ∨
    ∃ h j, s.pollIntervalRef = some h ∧
      s.activeIntervals = [{ handle := h, jobId := j, periodMs := 500 }]

/-- A drained poller: nothing persisted and no interval installed.  From such
a state, no event other than a fresh `startPolling` can ever issue a poll. -/
def Quiesced (s : ClientState) : Prop :=
  s.storage = none ∧ s.activeIntervals = []

/-- Character-list prefix test. -/
def hasPrefixChars : List Char → List Char → Bool
  | [], _ => true
  | _ :: _, [] => false
  | a :: as, b :: bs => a = b && hasPrefixChars as bs

/-- Character-list contiguous-substring test. -/
def hasSubChars (p : List Char) : List Char → Bool
  | [] => p.isEmpty
  | b :: bs => hasPrefixChars p (b :: bs) || hasSubChars p bs

/-- Does `sub` occur as a contiguous substring of `s`? -/
def containsSub (s sub : String) : Bool :=
  hasSubChars sub.data s.data

/-- The claim's reading (following the spec's words, for comparison with the
toasts the code builds): a final summary "reports written out of total
(written/total) together with the enumerated per-file errors" — its message
contains the substring `written/total` and it carries the error list. -/
def specSummaryReports (t : Toast) (w total : Nat) (errs : List FileError) : Prop :=
  containsSub t.message (toString w ++ "/" ++ toString total) = true ∧
  t.errors = some errs

instance (t : Toast) (w total : Nat) (errs : List FileError) :
    Decidable (specSummaryReports t w total errs) := by
  unfold specSummaryReports
  infer_instance

/-! ## Invariants and helper lemmas -/

lemma pollerInv_initState : PollerInv initState := Or.inl rfl

lemma clearPollInterval_empty (s : ClientState) (hs : PollerInv s) :
    (clearPollInterval s).activeIntervals = [] ∧
      (clearPollInterval s).pollIntervalRef = none ∨
    clearPollInterval s = s ∧ s.activeIntervals = [] := by
  rcases hs with h0 | ⟨h, j, href, hact⟩
  · unfold clearPollInterval
    cases hrf : s.pollIntervalRef with
    | none => exact Or.inr ⟨rfl, h0⟩
    | some h => exact Or.inl ⟨by simp [h0], rfl⟩
  · unfold clearPollInterval
    rw [href]
    exact Or.inl ⟨by simp [hact], rfl⟩

lemma clearPollInterval_intervals (s : ClientState) (hs : PollerInv s) :
    (clearPollInterval s).activeIntervals = [] := by
  rcases clearPollInterval_empty s hs with ⟨h1, _⟩ | ⟨h1, h2⟩
  · exact h1
  · rw [h1, h2]

lemma clearPollInterval_storage (s : ClientState) :
    (clearPollInterval s).storage = s.storage := by
  cases h : s.pollIntervalRef <;> simp [clearPollInterval, h]

lemma clearPollInterval_issued (s : ClientState) :
    (clearPollInterval s).issued = s.issued := by
  cases h : s.pollIntervalRef <;> simp [clearPollInterval, h]

lemma startPolling_intervals (s : ClientState) (j : String) (hs : PollerInv s) :
    (startPolling s j).activeIntervals =
      [{ handle := s.nextHandle, jobId := j, periodMs := 500 }] := by
  unfold startPolling
  rcases hs with h0 | ⟨h, j0, href, hact⟩
  · cases hrf : s.pollIntervalRef <;> simp [h0]
  · rw [href]
    simp [hact]

lemma pollerInv_startPolling (s : ClientState) (j : String) (hs : PollerInv s) :
    PollerInv (startPolling s j) := by
  refine Or.inr ⟨s.nextHandle, j, rfl, ?_⟩
  exact startPolling_intervals s j hs

lemma clearPollInterval_setBJ (s : ClientState) (x : Option JobSnapshot) :
    clearPollInterval { s with backgroundJob := x } =
      { clearPollInterval s with backgroundJob := x } := by
  cases h : s.pollIntervalRef <;> simp [clearPollInterval, h]

lemma doPoll_err_eq (s : ClientState) (j : String) :
    doPoll s j .err =
      { clearPollInterval s with storage := none, backgroundJob := none } := rfl

lemma doPoll_nonterminal (s : ClientState) (j : String) (r : PollResponse)
    (h1 : r.status ≠ "completed") (h2 : r.status ≠ "not_found") :
    doPoll s j (.ok r) = { s with backgroundJob := some (snapshotOf j r) } := by
  show doPollOk _ r = _
  unfold doPollOk
  rw [if_neg h1, if_neg h2]

lemma doPoll_not_found (s : ClientState) (j : String) (r : PollResponse)
    (hr : r.status = "not_found") :
    doPoll s j (.ok r) =
      { clearPollInterval s with storage := none, backgroundJob := none } := by
  show doPollOk _ r = _
  unfold doPollOk
  rw [hr, if_neg (by decide), if_pos rfl, clearPollInterval_setBJ]

lemma doPoll_completed (s : ClientState) (j : String) (r : PollResponse)
    (hr : r.status = "completed") :
    doPoll s j (.ok r) =
      { clearPollInterval s with
        backgroundJob := some (snapshotOf j r),
        storage := none,
        invalidated := (clearPollInterval s).invalidated ++ ["series", "taggedSeries", "tracks"],
        jobToast := some (completedToast r),
        pendingClear := true } := by
  show doPollOk _ r = _
  unfold doPollOk
  rw [hr, if_pos rfl, clearPollInterval_setBJ]

lemma pollerInv_doPoll (s : ClientState) (j : String) (res : PollOutcome)
    (hs : PollerInv s) : PollerInv (doPoll s j res) := by
  cases res with
  | err =>
    rw [doPoll_err_eq]
    exact Or.inl (clearPollInterval_intervals s hs)
  | ok r =>
    by_cases hc : r.status = "completed"
    · rw [doPoll_completed s j r hc]
      exact Or.inl (clearPollInterval_intervals s hs)
    · by_cases hn : r.status = "not_found"
      · rw [doPoll_not_found s j r hn]
        exact Or.inl (clearPollInterval_intervals s hs)
      · rw [doPoll_nonterminal s j r hc hn]
        rcases hs with h0 | ⟨h, j0, href, hact⟩
        · exact Or.inl h0
        · exact Or.inr ⟨h, j0, href, hact⟩

lemma pollerInv_mountEffect (s : ClientState) (hs : PollerInv s) :
    PollerInv (mountEffect s) := by
  unfold mountEffect
  by_cases hc : jsTruthyStr s.storage = true ∧ s.pollIntervalRef = none
  · rw [if_pos hc]
    rcases hs with h0 | ⟨h, j0, href, hact⟩
    · exact Or.inr ⟨s.nextHandle, s.storage.getD "", rfl, by simp [h0]⟩
    · rw [hc.2] at href
      exact absurd href (by simp)
  · rw [if_neg hc]
    exact hs

lemma pollerInv_fireInterval (s : ClientState) (h : Nat) (hs : PollerInv s) :
    PollerInv (fireInterval s h) := by
  unfold fireInterval
  cases s.activeIntervals.find? (fun r => r.handle = h) with
  | none => exact hs
  | some rec =>
    rcases hs with h0 | ⟨hh, j0, href, hact⟩
    · exact Or.inl h0
    · exact Or.inr ⟨hh, j0, href, hact⟩

lemma pollerInv_timeoutFire (s : ClientState) (hs : PollerInv s) :
    PollerInv (timeoutFire s) := by
  unfold timeoutFire
  split
  · rcases hs with h0 | ⟨hh, j0, href, hact⟩
    · exact Or.inl h0
    · exact Or.inr ⟨hh, j0, href, hact⟩
  · exact hs

lemma pollerInv_step (s : ClientState) (e : Event) (hs : PollerInv s) :
    PollerInv (step s e) := by
  cases e with
  | start j => exact pollerInv_startPolling s j hs
  | resolve j res => exact pollerInv_doPoll s j res hs
  | tick h => exact pollerInv_fireInterval s h hs
  | mount => exact pollerInv_mountEffect s hs
  | timeout => exact pollerInv_timeoutFire s hs

lemma pollerInv_length (s : ClientState) (hs : PollerInv s) :
    s.activeIntervals.length ≤ 1 := by
  rcases hs with h0 | ⟨h, j0, _, hact⟩
  · simp [h0]
  · simp [hact]

lemma quiesced_clearPollInterval (s : ClientState) (h : s.activeIntervals = []) :
    (clearPollInterval s).activeIntervals = [] := by
  cases hr : s.pollIntervalRef <;> simp [clearPollInterval, hr, h]

lemma quiesced_step (s : ClientState) (e : Event) (hq : Quiesced s)
    (he : e.isStart = false) :
    Quiesced (step s e) ∧ (step s e).issued = s.issued := by
  obtain ⟨hst, hact⟩ := hq
  cases e with
  | start j => simp [Event.isStart] at he
  | resolve j res =>
    cases res with
    | err =>
      simp only [step, doPoll_err_eq]
      exact ⟨⟨rfl, quiesced_clearPollInterval s hact⟩, clearPollInterval_issued s⟩
    | ok r =>
      simp only [step]
      by_cases hc : r.status = "completed"
      · rw [doPoll_completed s j r hc]
        exact ⟨⟨rfl, quiesced_clearPollInterval s hact⟩, clearPollInterval_issued s⟩
      · by_cases hn : r.status = "not_found"
        · rw [doPoll_not_found s j r hn]
          exact ⟨⟨rfl, quiesced_clearPollInterval s hact⟩, clearPollInterval_issued s⟩
        · rw [doPoll_nonterminal s j r hc hn]
          exact ⟨⟨hst, hact⟩, rfl⟩
  | tick h =>
    simp only [step]
    unfold fireInterval
    rw [hact]
    exact ⟨⟨hst, hact⟩, rfl⟩
  | mount =>
    simp only [step]
    unfold mountEffect
    rw [hst, if_neg (by simp [jsTruthyStr])]
    exact ⟨⟨hst, hact⟩, rfl⟩
  | timeout =>
    simp only [step]
    unfold timeoutFire
    split
    · exact ⟨⟨hst, hact⟩, rfl⟩
    · exact ⟨⟨hst, hact⟩, rfl⟩

lemma quiesced_runEvents (es : List Event) : ∀ s : ClientState, Quiesced s → noNewStart es →
    Quiesced (runEvents s es) ∧ (runEvents s es).issued = s.issued := by
  induction es with
  | nil => exact fun s hq _ => ⟨hq, rfl⟩
  | cons e es ih =>
    intro s hq hns
    have he : e.isStart = false := hns e (List.mem_cons_self e es)
    have hrest : noNewStart es := fun x hx => hns x (List.mem_cons_of_mem e hx)
    obtain ⟨hq2, hiss⟩ := quiesced_step s e hq he
    obtain ⟨hq3, hiss2⟩ := ih (step s e) hq2 hrest
    refine ⟨hq3, ?_⟩
    show (runEvents (step s e) es).issued = s.issued
    rw [hiss2, hiss]

lemma clearPollInterval_ref (s : ClientState) :
    (clearPollInterval s).pollIntervalRef = none := by
  cases h : s.pollIntervalRef <;> simp [clearPollInterval, h]

lemma clearPollInterval_invalidated (s : ClientState) :
    (clearPollInterval s).invalidated = s.invalidated := by
  cases h : s.pollIntervalRef <;> simp [clearPollInterval, h]

lemma fireInterval_backgroundJob (s : ClientState) (h : Nat) :
    (fireInterval s h).backgroundJob = s.backgroundJob := by
  cases hf : s.activeIntervals.find? (fun r => r.handle = h) <;>
    simp [fireInterval, hf]

lemma hasPrefixChars_append (p rest : List Char) :
    hasPrefixChars p (p ++ rest) = true := by
  induction p with
  | nil => rfl
  | cons a as ih => simp [hasPrefixChars, ih]

lemma hasSubChars_of_hasPrefixChars (p : List Char) :
    ∀ l : List Char, hasPrefixChars p l = true → hasSubChars p l = true := by
  intro l hp
  cases l with
  | nil =>
    cases p with
    | nil => rfl
    | cons a as => exact absurd hp (by simp [hasPrefixChars])
  | cons b bs => simp [hasSubChars, hp]

lemma containsSub_append (p rest : String) :
    containsSub (p ++ rest) p = true := by
  unfold containsSub
  rw [String.data_append]
  exact hasSubChars_of_hasPrefixChars _ _ (hasPrefixChars_append _ _)

lemma removeRun_counts (failing : List Nat) (ids : List Nat) :
    ∀ store : List Track,
      (removeRun failing ids store).1 =
        (ids.filter (fun tid => decide (tid ∉ failing))).length ∧
      (removeRun failing ids store).2.1.length =
        (ids.filter (fun tid => decide (tid ∈ failing))).length := by
  induction ids with
  | nil => intro store; exact ⟨rfl, rfl⟩
  | cons tid rest ih =>
    intro store
    by_cases h : tid ∈ failing
    · simp only [removeRun]
      rw [if_pos h]
      obtain ⟨ih1, ih2⟩ := ih store
      constructor
      · simpa [List.filter_cons, h] using ih1
      · simp [List.filter_cons, h, ih2]
    · simp only [removeRun]
      rw [if_neg h]
      obtain ⟨ih1, ih2⟩ :=
        ih (store.map (fun t => if t.id = tid then clearSeriesMeta t else t))
      constructor
      · simp [List.filter_cons, h, ih1]
      · simpa [List.filter_cons, h] using ih2

lemma filter_split_length (p : Nat → Bool) (l : List Nat) :
    (l.filter p).length + (l.filter (fun x => !(p x))).length = l.length :=
  (List.length_eq_length_filter_add p).symm

lemma containsSub_of_data_prefix (s p : String) (rest : List Char)
    (h : s.data = p.data ++ rest) : containsSub s p = true := by
  unfold containsSub
  rw [h]
  exact hasSubChars_of_hasPrefixChars _ _ (hasPrefixChars_append _ _)


/-! ## Claim theorems -/

/-- C7: every job snapshot returned by `getJobStatus` (modelled from the
spec) has a status among exactly the eight values `starting`, `resuming`,
`downloading_cover`, `loading_tracks`, `tagging`, `updating_database`,
`completed`, `not_found`: every status wire string is in the list, every
listed string is some status, and each status except `not_found` has a
dedicated label in the client's progress panel. -/
theorem getJobStatus_status_domain :
    (∀ st : JobStatus, st.toWire ∈ specStatusStrings ∧
      (st.toWire ∈ clientHandledStatuses ∨ st = JobStatus.not_found)) ∧
    (∀ w ∈ specStatusStrings, ∃ st : JobStatus, st.toWire = w) := by
  constructor
  · intro st
    cases st <;> simp [JobStatus.toWire, specStatusStrings, clientHandledStatuses]
  · intro w hw
    simp only [specStatusStrings, List.mem_cons, List.not_mem_nil, or_false] at hw
    rcases hw with h | h | h | h | h | h | h | h <;> subst h
    exacts [⟨.starting, rfl⟩, ⟨.resuming, rfl⟩, ⟨.downloading_cover, rfl⟩,
      ⟨.loading_tracks, rfl⟩, ⟨.tagging, rfl⟩, ⟨.updating_database, rfl⟩,
      ⟨.completed, rfl⟩, ⟨.not_found, rfl⟩]

/-- Witness for C7 at the concrete status string `"tagging"`. -/
theorem getJobStatus_status_domain_witness :
    "tagging" ∈ specStatusStrings ∧ ∃ st : JobStatus, st.toWire = "tagging" :=
  ⟨by decide, getJobStatus_status_domain.2 "tagging" (by decide)⟩

/-- C1: every result of `applySeriesAlbum` (modelled from the spec) is
either a synchronous `SyncResult` or `{background: true, job_id}`, and the
client's `applyMutation.onSuccess` starts polling exactly for the
background delegations (`data.background && data.job_id` truthy), treating
every other result as a completed synchronous batch. -/
theorem applySeriesAlbum_result_dispatch (cs : ClientState) (ps : PageState)
    (r : ApplyResult) (hwf : r.wf) :
    applyOnSuccess cs ps (encodeApplyResult r) =
      (match r with
       | .background j => (startPolling cs j, ps)
       | .sync _ _ _ _ _ => (cs, syncFinish ps (encodeApplyResult r))) := by
  cases r with
  | sync u w t errs m =>
    unfold applyOnSuccess
    rw [if_neg (by simp [encodeApplyResult, jsTruthyStr])]
  | background j =>
    unfold applyOnSuccess
    rw [if_pos (by simp only [encodeApplyResult, jsTruthyStr, Bool.true_and,
      decide_eq_true_eq]; exact hwf)]
    rfl

/-- Witness for C1: a background delegation with job id `"job-1"` makes the
client hand exactly that id to `startPolling`. -/
theorem applySeriesAlbum_result_dispatch_witness :
    applyOnSuccess initState initPage (encodeApplyResult (ApplyResult.background "job-1")) =
      (startPolling initState "job-1", initPage) :=
  applySeriesAlbum_result_dispatch initState initPage (ApplyResult.background "job-1")
    (by decide)

/-- C4: `removeFromSeries` (modelled from the spec) always completes
synchronously — its response carries no background flag or job id — and
reports `{updated, errors}` with the continue-on-error policy: `updated`
counts every non-failing track even when earlier tracks failed, each
failing track contributes one error entry, and the two together exhaust the
requested ids. -/
theorem removeFromSeries_sync (store : List Track) (failing : List Nat)
    (trackIds : List Nat) :
    (removeFromSeries store failing trackIds).1.background = false ∧
    (removeFromSeries store failing trackIds).1.job_id = none ∧
    (removeFromSeries store failing trackIds).1.updated =
      some ((trackIds.filter (fun tid => decide (tid ∉ failing))).length) ∧
    ((removeFromSeries store failing trackIds).1.errors.getD []).length =
      (trackIds.filter (fun tid => decide (tid ∈ failing))).length ∧
    ((removeFromSeries store failing trackIds).1.updated.getD 0) +
      ((removeFromSeries store failing trackIds).1.errors.getD []).length =
      trackIds.length := by
  obtain ⟨h1, h2⟩ := removeRun_counts failing trackIds store
  refine ⟨rfl, rfl, ?_, ?_, ?_⟩
  · show some (removeRun failing trackIds store).1 = _
    rw [h1]
  · show (removeRun failing trackIds store).2.1.length = _
    exact h2
  · show (removeRun failing trackIds store).1 +
      (removeRun failing trackIds store).2.1.length = _
    rw [h1, h2]
    have hfun : (fun tid => decide (tid ∉ failing)) =
        (fun x => !(decide (x ∈ failing))) := by
      funext x
      simp [decide_not]
    rw [hfun, Nat.add_comm]
    exact filter_split_length (fun x => decide (x ∈ failing)) trackIds

/-- C2: once a poll returns status `not_found`, the poller treats it as
terminal: the persisted job id is removed, the background-job state is
cleared, no interval survives, and along any continuation that contains no
fresh `startPolling` call the poller never issues another poll — for this
or any job id. -/
theorem not_found_terminal (s : ClientState) (j : String) (r : PollResponse)
    (hinv : PollerInv s) (hr : r.status = "not_found") :
    (doPoll s j (.ok r)).storage = none ∧
    (doPoll s j (.ok r)).backgroundJob = none ∧
    (doPoll s j (.ok r)).activeIntervals = [] ∧
    ∀ es : List Event, noNewStart es →
      (runEvents (doPoll s j (.ok r)) es).issued = (doPoll s j (.ok r)).issued := by
  rw [doPoll_not_found s j r hr]
  refine ⟨rfl, rfl, clearPollInterval_intervals s hinv, ?_⟩
  intro es hns
  exact (quiesced_runEvents es
    { clearPollInterval s with storage := none, backgroundJob := none }
    ⟨rfl, clearPollInterval_intervals s hinv⟩ hns).2

/-- Witness for C2: a poller that started job `"j1"`, receives `not_found`,
then sees a tick, a remount and a timeout — and issues no further poll. -/
theorem not_found_terminal_witness :
    (runEvents
        (doPoll (startPolling initState "j1") "j1"
          (.ok { status := "not_found" }))
        [Event.tick 0, Event.mount, Event.timeout]).issued =
      (doPoll (startPolling initState "j1") "j1"
        (.ok { status := "not_found" })).issued :=
  (not_found_terminal (startPolling initState "j1") "j1" { status := "not_found" }
      (Or.inr ⟨0, "j1", rfl, rfl⟩) rfl).2.2.2
    [Event.tick 0, Event.mount, Event.timeout] (by decide)

/-- C8: a thrown poll error is handled exactly like a `not_found` response —
the resulting state is identical: interval cleared, persisted job id
removed, background-job state cleared, and (being the same state) it is
never retried. -/
theorem poll_error_terminal (s : ClientState) (j : String) (r : PollResponse)
    (hr : r.status = "not_found") :
    doPoll s j .err = doPoll s j (.ok r) ∧
    (doPoll s j .err).storage = none ∧
    (doPoll s j .err).backgroundJob = none ∧
    (doPoll s j .err).pollIntervalRef = none := by
  rw [doPoll_err_eq, doPoll_not_found s j r hr]
  exact ⟨rfl, rfl, rfl, clearPollInterval_ref s⟩

/-- Witness for C8 on a concrete polling state. -/
theorem poll_error_terminal_witness :
    doPoll (startPolling initState "j2") "j2" .err =
      doPoll (startPolling initState "j2") "j2" (.ok { status := "not_found" }) :=
  (poll_error_terminal (startPolling initState "j2") "j2" { status := "not_found" }
      rfl).1

/-- C10: the snapshot the poller stores from a poll response is total over
missing fields — `processed`, `total` and `written` default to 0 and
`errors` to `[]` when absent — and a non-terminal response stores exactly
that snapshot as the background-job state. -/
theorem snapshot_total_defaults (s : ClientState) (j : String) (r : PollResponse)
    (h1 : r.status ≠ "completed") (h2 : r.status ≠ "not_found") :
    (doPoll s j (.ok r)).backgroundJob = some (snapshotOf j r) ∧
    (snapshotOf j r).processed = r.processed.getD 0 ∧
    (snapshotOf j r).total = r.total.getD 0 ∧
    (snapshotOf j r).written = r.written.getD 0 ∧
    (snapshotOf j r).errors = r.errors.getD [] ∧
    (r.processed = none → (snapshotOf j r).processed = 0) ∧
    (r.total = none → (snapshotOf j r).total = 0) ∧
    (r.written = none → (snapshotOf j r).written = 0) ∧
    (r.errors = none → (snapshotOf j r).errors = []) := by
  refine ⟨?_, rfl, rfl, rfl, rfl, ?_, ?_, ?_, ?_⟩
  · rw [doPoll_nonterminal s j r h1 h2]
  · intro h
    simp [snapshotOf, h]
  · intro h
    simp [snapshotOf, h]
  · intro h
    simp [snapshotOf, h]
  · intro h
    simp [snapshotOf, h]

/-- Witness for C10: a bare `tagging` response with every counter absent is
stored as an all-zero snapshot with an empty error list. -/
theorem snapshot_total_defaults_witness :
    (doPoll initState "j3" (.ok { status := "tagging" })).backgroundJob =
      some (snapshotOf "j3" { status := "tagging" }) :=
  (snapshot_total_defaults initState "j3" { status := "tagging" }
      (by decide) (by decide)).1

/-- C9: the poller keeps at most one active interval: the invariant holds on
mount, every event preserves it, it bounds the number of active intervals
by one, and `startPolling` for a new job leaves exactly the new job's
interval — any previous job's interval is cleared. -/
theorem single_active_interval (s : ClientState) (hs : PollerInv s) :
    PollerInv initState ∧
    (∀ e : Event, PollerInv (step s e)) ∧
    s.activeIntervals.length ≤ 1 ∧
    (∀ j : String, (startPolling s j).activeIntervals =
      [{ handle := s.nextHandle, jobId := j, periodMs := 500 }]) :=
  ⟨pollerInv_initState, fun e => pollerInv_step s e hs, pollerInv_length s hs,
    fun j => startPolling_intervals s j hs⟩

/-- Witness for C9: starting job `"j5"` over a poller already polling `"j4"`
leaves exactly one interval, and it polls `"j5"`. -/
theorem single_active_interval_witness :
    (startPolling (startPolling initState "j4") "j5").activeIntervals =
      [{ handle := 1, jobId := "j5", periodMs := 500 }] :=
  (single_active_interval (startPolling initState "j4")
      (Or.inr ⟨0, "j4", rfl, rfl⟩)).2.2.2 "j5"

/-- C5: when the provider mounts with a persisted job id and no active
interval, it resumes that very job: it publishes a zeroed `resuming`
snapshot for the saved id, issues one immediate poll of the saved id (no
other id — no new job), installs a 500 ms interval for it, and the
`resuming` status persists across interval ticks and the toast timeout
until a poll response arrives. -/
theorem mount_resumes_persisted_job (s : ClientState) (j : String)
    (hst : s.storage = some j) (hj : j ≠ "") (href : s.pollIntervalRef = none)
    (hpc : s.pendingClear = false) :
    mountEffect s = { s with
      backgroundJob := some { jobId := j, status := "resuming", processed := 0,
                              total := 0, written := 0, errors := [] },
      issued := s.issued ++ [j],
      activeIntervals := s.activeIntervals ++
        [{ handle := s.nextHandle, jobId := j, periodMs := 500 }],
      pollIntervalRef := some s.nextHandle,
      nextHandle := s.nextHandle + 1 } ∧
    (mountEffect s).backgroundJob.map JobSnapshot.status = some "resuming" ∧
    (∀ h : Nat, (fireInterval (mountEffect s) h).backgroundJob =
      (mountEffect s).backgroundJob) ∧
    (timeoutFire (mountEffect s)).backgroundJob = (mountEffect s).backgroundJob := by
  have hmount : mountEffect s = { s with
      backgroundJob := some { jobId := j, status := "resuming", processed := 0,
                              total := 0, written := 0, errors := [] },
      issued := s.issued ++ [j],
      activeIntervals := s.activeIntervals ++
        [{ handle := s.nextHandle, jobId := j, periodMs := 500 }],
      pollIntervalRef := some s.nextHandle,
      nextHandle := s.nextHandle + 1 } := by
    unfold mountEffect
    rw [hst]
    rw [if_pos ⟨by simp [jsTruthyStr, hj], href⟩]
    rfl
  refine ⟨hmount, ?_, fun h => fireInterval_backgroundJob (mountEffect s) h, ?_⟩
  · rw [hmount]
    rfl
  · unfold timeoutFire
    rw [if_neg ?hne]
    case hne =>
      rw [hmount]
      show ¬ s.pendingClear = true
      rw [hpc]
      exact Bool.false_ne_true

/-- Witness for C5: mounting with `"j7"` persisted and no interval shows the
`resuming` status. -/
theorem mount_resumes_persisted_job_witness :
    (mountEffect { initState with storage := some "j7" }).backgroundJob.map
      JobSnapshot.status = some "resuming" :=
  (mount_resumes_persisted_job { initState with storage := some "j7" } "j7"
      rfl (by decide) rfl rfl).2.1

/-- C6: accepting a job for polling issues one poll immediately and installs
a single interval with period exactly 500 ms for that job; each tick of
that interval issues one more poll of the same job; a non-terminal response
leaves the interval running, while a terminal response (`completed` or
`not_found`) removes it, stopping the cadence. -/
theorem polling_cadence (s : ClientState) (j : String) (hs : PollerInv s) :
    (startPolling s j).issued = s.issued ++ [j] ∧
    (startPolling s j).activeIntervals =
      [{ handle := s.nextHandle, jobId := j, periodMs := 500 }] ∧
    (startPolling s j).pollIntervalRef = some s.nextHandle ∧
    (∀ t : ClientState,
      t.activeIntervals = [{ handle := s.nextHandle, jobId := j, periodMs := 500 }] →
      fireInterval t s.nextHandle = { t with issued := t.issued ++ [j] }) ∧
    (∀ (t : ClientState) (r : PollResponse),
      r.status ≠ "completed" → r.status ≠ "not_found" →
      (doPoll t j (.ok r)).activeIntervals = t.activeIntervals ∧
      (doPoll t j (.ok r)).pollIntervalRef = t.pollIntervalRef) ∧
    (∀ (t : ClientState) (r : PollResponse), PollerInv t →
      (r.status = "completed" ∨ r.status = "not_found") →
      (doPoll t j (.ok r)).activeIntervals = [] ∧
      (doPoll t j (.ok r)).pollIntervalRef = none) := by
  refine ⟨rfl, startPolling_intervals s j hs, rfl, ?_, ?_, ?_⟩
  · intro t ht
    unfold fireInterval
    rw [ht]
    simp [List.find?]
  · intro t r h1 h2
    rw [doPoll_nonterminal t j r h1 h2]
    exact ⟨rfl, rfl⟩
  · intro t r hti hterm
    rcases hterm with hc | hn
    · rw [doPoll_completed t j r hc]
      exact ⟨clearPollInterval_intervals t hti, clearPollInterval_ref t⟩
    · rw [doPoll_not_found t j r hn]
      exact ⟨clearPollInterval_intervals t hti, clearPollInterval_ref t⟩

/-- Witness for C6: starting to poll `"j1"` on a fresh poller issues the
immediate first poll. -/
theorem polling_cadence_witness :
    (startPolling initState "j1").issued = initState.issued ++ ["j1"] :=
  (polling_cadence initState "j1" (Or.inl rfl)).1

/-- C3 counterexample: an error-free completed batch of 5 files with 2
written yields the toast "Successfully tagged 2 tracks" — it reports
neither `2/5` nor an error list, so the final summary does not always
report written/total plus enumerated errors. -/
theorem summary_counterexample :
    (doPoll (startPolling initState "jc") "jc"
        (.ok { status := "completed", processed := some 5, total := some 5,
               written := some 2, errors := some [] })).jobToast =
      some { kind := "success", message := "Successfully tagged 2 tracks",
             errors := none } ∧
    ¬ specSummaryReports
        { kind := "success", message := "Successfully tagged 2 tracks",
          errors := none } 2 5 [] := by
  constructor
  · rfl
  · decide

/-- C3 (amended): whenever a finished batch has at least one per-file
error, the final summary — the completed-job toast on the background path
and the mutation toast on the synchronous path — reports written/total and
carries the enumerated error list. -/
theorem summary_reports_amended
    (r : PollResponse) (w tot : Nat)
    (hr : r.status = "completed")
    (hw : r.written = some w) (ht : r.total = some tot)
    (he : 0 < (r.errors.getD []).length)
    (s : ClientState) (j : String)
    (d : ApplyResponse)
    (hdw : d.written = some w) (hdt : d.total_files = some tot)
    (hde : 0 < (d.errors.getD []).length)
    (hbg : (d.background && jsTruthyStr d.job_id) = false)
    (cs : ClientState) (ps : PageState) :
    (doPoll s j (.ok r)).jobToast = some (completedToast r) ∧
    specSummaryReports (completedToast r) w tot (r.errors.getD []) ∧
    (applyOnSuccess cs ps d).2.localToast = some (syncToast d) ∧
    specSummaryReports (syncToast d) w tot (d.errors.getD []) := by
  refine ⟨?_, ?_, ?_, ?_⟩
  · rw [doPoll_completed s j r hr]
  · unfold specSummaryReports completedToast
    rw [if_pos he]
    refine ⟨?_, rfl⟩
    apply containsSub_of_data_prefix _ _
      ((" files written. ").data ++
        ((toString (r.errors.getD []).length).data ++ (" errors:").data))
    rw [hw, ht]
    simp only [jsNat]
    simp [String.data_append, List.append_assoc]
  · unfold applyOnSuccess
    rw [if_neg (by simp [hbg])]
    rfl
  · unfold specSummaryReports syncToast
    rw [if_pos hde]
    refine ⟨?_, rfl⟩
    apply containsSub_of_data_prefix _ _
      ((" files written. ").data ++
        ((toString (d.errors.getD []).length).data ++ (" errors:").data))
    rw [hdw, hdt]
    simp only [jsNat]
    simp [String.data_append, List.append_assoc]

/-- Witness for the amended C3 on a concrete one-error batch. -/
theorem summary_reports_amended_witness :
    specSummaryReports
      (completedToast
        { status := "completed", processed := some 5, total := some 5,
          written := some 4,
          errors := some [{ filename := "a.mp3", error := "EACCES" }] })
      4 5 [{ filename := "a.mp3", error := "EACCES" }] :=
  (summary_reports_amended
      { status := "completed", processed := some 5, total := some 5,
        written := some 4,
        errors := some [{ filename := "a.mp3", error := "EACCES" }] }
      4 5 rfl rfl rfl (by decide) initState "jw"
      { background := false, job_id := none, updated := some 4,
        written := some 4, total_files := some 5,
        errors := some [{ filename := "a.mp3", error := "EACCES" }],
        message := some "m" }
      rfl rfl (by decide) (by decide) initState initPage).2.1
